import Mathlib

/-!
# The HTTP gateway of the modmail bot (`src/modules/webserver.js`)

A shallow embedding of the four request handlers and of the route table.

* JavaScript strings are Lean strings, read through their list of characters.
* The collaborators the module requires (thread store, attachment store,
  formatter, MIME table, file system, query layer, host framework) are the
  fields of `Env`; a handler is a function of `Env` and of the request.
* A handler returns an `Outcome`: the collaborator calls it made, in order,
  and the response it wrote.
-/

namespace Webserver

/-! ## Values read from the request -/

/-- A value of `req.query` as the query parser of the framework yields it: a
string (empty for `?k` and `?k=`), an array (`?k=a&k=b`) or a nested object
(`?k[x]=a`). The handlers observe only whether such a value is truthy. -/
inductive QueryValue where
  | str (s : String)
  | arr (items : List String)
  | obj (fields : List (String × String))
deriving DecidableEq, Repr

/-- The route parameters `req.params`. -/
structure Params where
  threadId : String := ""
  attachmentId : String := ""
  filename : String := ""
deriving DecidableEq, Repr

/-- The part of an `express.Request` the handlers read. -/
structure Request where
  params : Params := {}
  query : List (String × QueryValue) := []
deriving DecidableEq, Repr

/-- Property access `req.query.key`: `none` stands for `undefined`. -/
def Request.queryGet (req : Request) (key : String) : Option QueryValue :=
  req.query.lookup key

/-- JavaScript truthiness of a query value: `undefined` and the empty string
are falsy, every other string, every array and every object is truthy.
It is the meaning of `Boolean(v)` and of `v ? true : false`. -/
def Boolean : Option QueryValue → Bool
  | none => false
  | some (.str s) => !s.data.isEmpty
  | some (.arr _) => true
  | some (.obj _) => true

/-! ## Regular expressions of the shape `^[class]+$` -/

/-- One item of a character class: a range such as `a-z`, or one character. -/
inductive ClassItem where
  | range (lo hi : Char)
  | char (c : Char)
deriving DecidableEq, Repr

/-- A regular expression `^[items]+$`, with the `i` flag when `ignoreCase`. -/
structure ClassPlus where
  items : List ClassItem
  ignoreCase : Bool
deriving DecidableEq, Repr

/-- Membership of a character in a class item. -/
def ClassItem.contains : ClassItem → Char → Bool
  | .range lo hi, c => decide (lo.toNat ≤ c.toNat) && decide (c.toNat ≤ hi.toNat)
  | .char d, c => c == d

/-- Membership of a character in a class, case-sensitively. -/
def ClassPlus.inClass (re : ClassPlus) (c : Char) : Bool :=
  re.items.any (fun item => item.contains c)

/-- One character against the class. With the `i` flag (and no `u` flag) two
characters are compared after canonicalisation, which maps `a-z` to `A-Z` and
never maps a character outside ASCII to one inside: the character matches when
it, its ASCII lower case or its ASCII upper case is in the class. -/
def ClassPlus.matchChar (re : ClassPlus) (c : Char) : Bool :=
  re.inClass c || (re.ignoreCase && (re.inClass c.toLower || re.inClass c.toUpper))

/-- Whether `s.match(re)` is not `null`. The anchors `^` and `$` (no `m` flag)
are the two ends of the string, and `+` asks for one character at least. -/
def ClassPlus.test (re : ClassPlus) (s : String) : Bool :=
  !s.data.isEmpty && s.data.all re.matchChar

/-- The pattern `/^[0-9]+$/` of line 41. -/
def attachmentIdPattern : ClassPlus :=
  { items := [.range '0' '9'], ignoreCase := false }

/-- The pattern `/^[0-9a-z._-]+$/i` of line 42. -/
def filenamePattern : ClassPlus :=
  { items := [.range '0' '9', .range 'a' 'z', .char '.', .char '_', .char '-'],
    ignoreCase := true }

/-! ## `String.prototype.split` with a one-character separator -/

/-- The list `s.split(sep)` on characters: the pieces between the separators,
empty pieces included; a string without separator gives one piece. -/
def splitChars (sep : Char) : List Char → List (List Char)
  | [] => [[]]
  | c :: cs =>
    if c = sep then [] :: splitChars sep cs
    else
      match splitChars sep cs with
      | [] => [[c]]
      | p :: ps => (c :: p) :: ps

/-- The array `s.split(sep)`. -/
def split (s : String) (sep : Char) : List String :=
  (splitChars sep s.data).map String.mk

/-! ## Data model -/

/-- A thread (ticket): a row of the `threads` table, with the columns the
gateway reads. `status` is `1` for OPEN and `2` for CLOSED. -/
structure Thread where
  id : String
  thread_number : Int
  status : Int
deriving DecidableEq, Repr

/-- One message of a thread. -/
structure ThreadMessage where
  id : Nat
  body : String
deriving DecidableEq, Repr

/-- The options object handed to `formatters.formatLog`. -/
structure FormatLogOpts where
  simple : Bool
  verbose : Bool
deriving DecidableEq, Repr

/-- The `extra` object of a formatter result. `contentType` is `none` when the
property is missing. -/
structure Extra where
  contentType : Option String := none
deriving DecidableEq, Repr

/-- The result of `formatters.formatLog`; `extra` is `none` when missing. -/
structure FormatLogResult where
  content : String
  extra : Option Extra := none
deriving DecidableEq, Repr

/-- A row of an aggregate answer, such as `status: 1, count: 3`: its named
integer fields, in order. -/
abbrev Record := List (String × Int)

/-! ## The query layer -/

/-- The integer columns of `threads` the handlers filter, order and group on. -/
inductive Column where
  | thread_number
  | status
deriving DecidableEq, Repr

/-- Sort direction of an `orderBy` clause. -/
inductive Direction where
  | ASC
  | DESC
deriving DecidableEq, Repr

/-- A query under construction: what the builder calls have recorded. -/
structure Query where
  table : String
  orderBys : List (Column × Direction) := []
  wheres : List (Column × Int) := []
  selects : List Column := []
  countId : Option String := none
  groupBys : List Column := []
deriving DecidableEq, Repr

/-- Builder call `knex(table)`. -/
def knex (table : String) : Query := { table := table }

/-- Builder call `.orderBy(column, direction)`. -/
def Query.orderBy (q : Query) (c : Column) (d : Direction) : Query :=
  { q with orderBys := q.orderBys ++ [(c, d)] }

/-- Builder call `.where(column, value)`. -/
def Query.where_ (q : Query) (c : Column) (v : Int) : Query :=
  { q with wheres := q.wheres ++ [(c, v)] }

/-- Builder call `.select(column)`. -/
def Query.select (q : Query) (c : Column) : Query :=
  { q with selects := q.selects ++ [c] }

/-- Builder call `.count("id", { as: name })`. -/
def Query.count (q : Query) (name : String) : Query :=
  { q with countId := some name }

/-- Builder call `.groupBy(column)`. -/
def Query.groupBy (q : Query) (c : Column) : Query :=
  { q with groupBys := q.groupBys ++ [c] }

/-- The value of an integer column in a row. -/
def Thread.get (t : Thread) : Column → Int
  | .thread_number => t.thread_number
  | .status => t.status

/-- Modelled from the spec: the query layer (the `knex` module and the
database behind it) is not part of the source; `where` is an equality filter
on a column, several `where` clauses are conjoined. -/
def Query.satisfies (q : Query) (t : Thread) : Bool :=
  q.wheres.all (fun w => t.get w.1 == w.2)

/-- Modelled from the spec: the order an `orderBy` clause asks for, as a test
on a row and a row that may follow it. -/
def precedes (c : Column) : Direction → Thread → Thread → Bool
  | .ASC, a, b => decide (a.get c ≤ b.get c)
  | .DESC, a, b => decide (b.get c ≤ a.get c)

/-- Modelled from the spec: `orderBy` as a sort. The clauses are applied from
the last to the first with a stable sort, so that the first clause is the most
significant one. -/
def sortRows : List (Column × Direction) → List Thread → List Thread
  | [], rows => rows
  | (c, d) :: rest, rows =>
    List.insertionSort (fun a b => precedes c d a b = true) (sortRows rest rows)

/-- Modelled from the spec: the rows a plain `select` yields from the table
`threads` whose content is `table`: the rows passing the `where` clauses,
in the order asked for. Another table name has no rows. -/
def Query.rows (q : Query) (table : List Thread) : List Thread :=
  if q.table = "threads" then sortRows q.orderBys (table.filter q.satisfies) else []

/-- The name of a column, which is also the name of its field in an answer. -/
def Column.name : Column → String
  | .thread_number => "thread_number"
  | .status => "status"

/-- The values of the `groupBy` columns in a row. -/
def Query.groupKey (q : Query) (t : Thread) : List Int :=
  q.groupBys.map t.get

/-- Modelled from the spec: the rows an aggregate `select` yields from the
table `threads` whose content is `table`. The rows passing the `where`
clauses are grouped by the values of the `groupBy` columns; each group gives
one row, with the selected columns (read in a row of the group) and, under
the name given to `count`, the number of `id` values of the group. `id` is the
identity of a thread and is never null, so every row of the group counts. -/
def Query.counts (q : Query) (table : List Thread) : List Record :=
  if q.table = "threads" then
    let rows := table.filter q.satisfies
    (rows.map q.groupKey).dedup.filterMap (fun key =>
      match rows.filter (fun t => q.groupKey t == key) with
      | [] => none
      | t :: rest =>
        some (q.selects.map (fun c => (c.name, t.get c)) ++
          match q.countId with
          | none => []
          | some name => [(name, (((t :: rest).map Thread.id).length : Int))]))
  else []

/-! ## Responses, collaborators, outcomes -/

/-- What a handler hands to `res.send`, or pipes into the response. -/
inductive Body where
  | text (s : String)
  | object (fields : List (String × String))
  | rows (rs : List Thread)
  | records (rs : List Record)
  | stream (path : String)
deriving DecidableEq, Repr

/-- The response as the handler writes it: the status (200 unless set), the
content type handed to `res.set` or `res.type` (`none` when the handler sets
none, or hands `null`), and the body. -/
structure Response where
  status : Nat := 200
  contentType : Option String := none
  body : Body
deriving DecidableEq, Repr

/-- A GET request as the router sees it: the path and the parsed query. -/
structure HttpRequest where
  path : String
  query : List (String × QueryValue) := []
deriving DecidableEq, Repr

/-- The collaborators of the module. None of them is in the source; each is
taken as given. `access path` is `true` when `fs.access` reports no error;
`getType` is `mime.getType` (`none` for `null`); `threads` is the content of
the table `threads`. The last two fields belong to the error page of the host
framework: `shownPath path` is the request path as that page shows it
(URL-encoded, then HTML-escaped), `decodeErrorText piece` is what that page
shows when the route parameter `piece` cannot be percent-decoded (a short
message in production, the error with its stack otherwise). -/
structure Env where
  findById : String → Option Thread
  getThreadMessages : Thread → List ThreadMessage
  formatLog : Thread → List ThreadMessage → FormatLogOpts → FormatLogResult
  getLocalAttachmentPath : String → String
  access : String → Bool
  getType : String → Option String
  threads : List Thread
  shownPath : String → String
  decodeErrorText : String → String

/-- A call to a collaborator, with its arguments. -/
inductive Call where
  | findById (id : String)
  | getThreadMessages (thread : Thread)
  | formatLog (thread : Thread) (messages : List ThreadMessage) (opts : FormatLogOpts)
  | getLocalAttachmentPath (attachmentId : String)
  | access (path : String)
  | getType (ext : String)
  | createReadStream (path : String)
  | knex (table : String)
  | runQuery (q : Query)
deriving DecidableEq, Repr

/-- What a handler did: its collaborator calls in order, and its response. -/
structure Outcome where
  calls : List Call
  response : Response
deriving DecidableEq, Repr

/-! ## The handlers -/

/-- The response of `notfound(res)`, lines 15-17. -/
def notfound : Response :=
  { status := 404, body := .text "Page Not Found" }

/-- The content type chosen at line 34:
`extra && extra.contentType || "text/plain; charset=UTF-8"`. A missing `extra`,
a missing `contentType` and the empty string are falsy. -/
def logContentType (r : FormatLogResult) : String :=
  let conj : Option String :=
    match r.extra with
    | none => none
    | some extra => extra.contentType
  match conj with
  | none => "text/plain; charset=UTF-8"
  | some ct => if ct.data.isEmpty then "text/plain; charset=UTF-8" else ct

/-- The handler `serveLogs`, lines 23-38. -/
def serveLogs (env : Env) (req : Request) : Outcome :=
  match env.findById req.params.threadId with
  | none => { calls := [.findById req.params.threadId], response := notfound }
  | some thread =>
    let threadMessages := env.getThreadMessages thread
    let opts : FormatLogOpts :=
      { simple := Boolean (req.queryGet "simple"),
        verbose := Boolean (req.queryGet "verbose") }
    let formatLogResult := env.formatLog thread threadMessages opts
    let contentType := logContentType formatLogResult
    { calls := [.findById req.params.threadId, .getThreadMessages thread,
                .formatLog thread threadMessages opts],
      response := { contentType := some contentType,
                    body := .text formatLogResult.content } }

/-- The extension computed at lines 48-49. -/
def attachmentExt (filename : String) : String :=
  let filenameParts := split filename '.'
  if filenameParts.length > 1 then filenameParts.getLastD "" else "bin"

/-- The handler `serveAttachments`, lines 40-57. -/
def serveAttachments (env : Env) (req : Request) : Outcome :=
  if attachmentIdPattern.test req.params.attachmentId = false then
    { calls := [], response := notfound }
  else if filenamePattern.test req.params.filename = false then
    { calls := [], response := notfound }
  else
    let attachmentPath := env.getLocalAttachmentPath req.params.attachmentId
    if env.access attachmentPath = false then
      { calls := [.getLocalAttachmentPath req.params.attachmentId, .access attachmentPath],
        response := notfound }
    else
      let ext := attachmentExt req.params.filename
      let fileMime := env.getType ext
      { calls := [.getLocalAttachmentPath req.params.attachmentId, .access attachmentPath,
                  .getType ext, .createReadStream attachmentPath],
        response := { contentType := fileMime, body := .stream attachmentPath } }

/-- The handler `serveTickets`, lines 59-83. -/
def serveTickets (env : Env) (req : Request) : Outcome :=
  let openOnly := Boolean (req.queryGet "open")
  let closedOnly := Boolean (req.queryGet "closed")
  if openOnly && closedOnly then
    { calls := [],
      response := { status := 400, contentType := some "application/json",
                    body := .object [("error", "MALFORMED_INPUT"),
                      ("message", "Cannot have both open and closed parameters")] } }
  else
    let query := (knex "threads").orderBy .thread_number .DESC
    let query := if openOnly then query.where_ .status 1 else query
    let query := if closedOnly then query.where_ .status 2 else query
    let result := query.rows env.threads
    { calls := [.knex "threads", .runQuery query],
      response := { status := 200, contentType := some "application/json",
                    body := .rows result } }

/-- The handler `serveTicketStats`, lines 85-99. -/
def serveTicketStats (env : Env) (_req : Request) : Outcome :=
  let query := (((knex "threads").select .status).count "count").groupBy .status
  let result := query.counts env.threads
  { calls := [.knex "threads", .runQuery query],
    response := { status := 200, contentType := some "application/json",
                  body := .records result } }

/-! ## The route table -/

/-- A piece of a route path between two slashes: literal text, or a named
parameter such as `:threadId`. -/
inductive Segment where
  | lit (s : String)
  | param (name : String)
deriving DecidableEq, Repr

/-- The four handlers a route can name. -/
inductive Handler where
  | serveLogs
  | serveAttachments
  | serveTickets
  | serveTicketStats
deriving DecidableEq, Repr

/-- The registrations of lines 107-110, in their order. All are `server.get`. -/
def routes : List (List Segment × Handler) :=
  [ ([.lit "logs", .param "threadId"], .serveLogs),
    ([.lit "attachments", .param "attachmentId", .param "filename"], .serveAttachments),
    ([.lit "api", .lit "v1", .lit "tickets"], .serveTickets),
    ([.lit "api", .lit "v1", .lit "ticketStats"], .serveTicketStats) ]

/-- The pieces of a request path: the path starts with a slash, the rest is
cut at every slash, and one closing slash is allowed (routing is not strict),
so one empty last piece is dropped. `none` for a path without leading slash. -/
def pathSegments (path : String) : Option (List (List Char)) :=
  match path.data with
  | '/' :: rest =>
    let segs := splitChars '/' rest
    some (if segs.getLast? = some [] then segs.dropLast else segs)
  | _ => none

/-- One piece of the path against one piece of the route: literal text is
compared without regard to ASCII case (routing is not case sensitive), a
parameter takes any piece that is not empty and captures it as it stands in
the path, still percent-encoded. -/
def Segment.capture : Segment → List Char → Option (List (String × String))
  | .lit s, seg =>
    if seg.map Char.toLower = s.data.map Char.toLower then some [] else none
  | .param name, seg =>
    if seg.isEmpty then none else some [(name, String.mk seg)]

/-- A whole route path against the pieces of a request path. -/
def matchRoute : List Segment → List (List Char) → Option (List (String × String))
  | [], [] => some []
  | p :: ps, seg :: segs =>
    match p.capture seg, matchRoute ps segs with
    | some c, some cs => some (c ++ cs)
    | _, _ => none
  | _, _ => none

/-- The handlers whose route matches the path, each with its captures, in the
order of registration. -/
def matching (path : String) : List (Handler × List (String × String)) :=
  match pathSegments path with
  | none => []
  | some segs =>
    routes.filterMap (fun r => (matchRoute r.1 segs).map (fun captures => (r.2, captures)))

/-! ## Percent-decoding of the route parameters -/

/-- The value of a hexadecimal digit, of either case. -/
def hexValue (c : Char) : Option Nat :=
  if 48 ≤ c.toNat ∧ c.toNat ≤ 57 then some (c.toNat - 48)
  else if 65 ≤ c.toNat ∧ c.toNat ≤ 70 then some (c.toNat - 55)
  else if 97 ≤ c.toNat ∧ c.toNat ≤ 102 then some (c.toNat - 87)
  else none

/-- What a percent-encoded string is made of: a character that stands for
itself, or a byte written as `%` and two hexadecimal digits. -/
inductive Token where
  | char (c : Char)
  | byte (b : Nat)
deriving DecidableEq, Repr

/-- First step of `decodeURIComponent`: every `%` must be followed by two
hexadecimal digits and gives a byte; `none` stands for the `URIError`. -/
def unescape : List Char → Option (List Token)
  | [] => some []
  | c :: cs =>
    if c = '%' then
      match cs with
      | h :: l :: rest =>
        match hexValue h, hexValue l, unescape rest with
        | some a, some b, some ts => some (.byte (16 * a + b) :: ts)
        | _, _, _ => none
      | _ => none
    else
      match unescape cs with
      | some ts => some (.char c :: ts)
      | none => none

/-- A continuation byte of UTF-8, `10xxxxxx`. -/
def continuation (b : Nat) : Bool :=
  decide (128 ≤ b) && decide (b < 192)

/-- Second step of `decodeURIComponent`: the bytes are read as UTF-8. A byte
under 128 is a character; a lead byte announces one, two or three continuation
bytes, which must follow as escapes; an encoding that is too long, a
surrogate, a code point over `10FFFF` or a stray byte is a `URIError`. -/
def utf8 : List Token → Option (List Char)
  | [] => some []
  | .char c :: ts =>
    match utf8 ts with
    | some cs => some (c :: cs)
    | none => none
  | .byte b :: ts =>
    if b < 128 then
      match utf8 ts with
      | some cs => some (Char.ofNat b :: cs)
      | none => none
    else if 192 ≤ b ∧ b < 224 then
      match ts with
      | .byte b1 :: rest =>
        if continuation b1 = true ∧ 128 ≤ (b - 192) * 64 + (b1 - 128) then
          match utf8 rest with
          | some cs => some (Char.ofNat ((b - 192) * 64 + (b1 - 128)) :: cs)
          | none => none
        else none
      | _ => none
    else if 224 ≤ b ∧ b < 240 then
      match ts with
      | .byte b1 :: .byte b2 :: rest =>
        if continuation b1 = true ∧ continuation b2 = true ∧
            2048 ≤ ((b - 224) * 64 + (b1 - 128)) * 64 + (b2 - 128) ∧
            ¬ (55296 ≤ ((b - 224) * 64 + (b1 - 128)) * 64 + (b2 - 128) ∧
               ((b - 224) * 64 + (b1 - 128)) * 64 + (b2 - 128) < 57344) then
          match utf8 rest with
          | some cs =>
            some (Char.ofNat (((b - 224) * 64 + (b1 - 128)) * 64 + (b2 - 128)) :: cs)
          | none => none
        else none
      | _ => none
    else if 240 ≤ b ∧ b < 248 then
      match ts with
      | .byte b1 :: .byte b2 :: .byte b3 :: rest =>
        if continuation b1 = true ∧ continuation b2 = true ∧ continuation b3 = true ∧
            65536 ≤ (((b - 240) * 64 + (b1 - 128)) * 64 + (b2 - 128)) * 64 + (b3 - 128) ∧
            (((b - 240) * 64 + (b1 - 128)) * 64 + (b2 - 128)) * 64 + (b3 - 128) ≤ 1114111 then
          match utf8 rest with
          | some cs =>
            some (Char.ofNat
              ((((b - 240) * 64 + (b1 - 128)) * 64 + (b2 - 128)) * 64 + (b3 - 128)) :: cs)
          | none => none
        else none
      | _ => none
    else none

/-- The builtin `decodeURIComponent`; `none` stands for the `URIError`. -/
def decodeURIComponent (s : String) : Option String :=
  match unescape s.data with
  | none => none
  | some ts =>
    match utf8 ts with
    | none => none
    | some cs => some (String.mk cs)

/-- The framework function `decode_param`: an empty value is kept, any other
is handed to `decodeURIComponent`. -/
def decode_param (val : String) : Option String :=
  if val.data.isEmpty then some val else decodeURIComponent val

/-- The captures of a matched route, decoded one after the other. The first
value that cannot be decoded is the error. -/
def decodeParams : List (String × String) → Except String (List (String × String))
  | [] => .ok []
  | (name, val) :: rest =>
    match decode_param val with
    | none => .error val
    | some decoded =>
      match decodeParams rest with
      | .ok params => .ok ((name, decoded) :: params)
      | .error e => .error e

/-- The `req.params` object built from the decoded captures. -/
def toParams (captures : List (String × String)) : Params :=
  { threadId := (captures.lookup "threadId").getD "",
    attachmentId := (captures.lookup "attachmentId").getD "",
    filename := (captures.lookup "filename").getD "" }

/-- Running a handler. -/
def Handler.run : Handler → Env → Request → Outcome
  | .serveLogs => Webserver.serveLogs
  | .serveAttachments => Webserver.serveAttachments
  | .serveTickets => Webserver.serveTickets
  | .serveTicketStats => Webserver.serveTicketStats

/-! ## The application and the error page of the framework -/

/-- The HTML document the framework sends for a request it could not serve;
`shown` is the text of its `pre` element, already escaped. -/
def createHtmlDocument (shown : String) : String :=
  "<!DOCTYPE html>\n<html lang=\"en\">\n<head>\n<meta charset=\"utf-8\">\n" ++
  "<title>Error</title>\n</head>\n<body>\n<pre>" ++ shown ++ "</pre>\n</body>\n</html>\n"

/-- The answer of the framework to a GET request that no route handles:
status 404 and its error page, which reads `Cannot GET` and the path. -/
def unhandled (env : Env) (req : HttpRequest) : Response :=
  { status := 404, contentType := some "text/html; charset=utf-8",
    body := .text (createHtmlDocument ("Cannot GET " ++ env.shownPath req.path)) }

/-- The answer of the framework when the route parameter `piece` cannot be
percent-decoded: status 400 and its error page. -/
def badParam (env : Env) (piece : String) : Response :=
  { status := 400, contentType := some "text/html; charset=utf-8",
    body := .text (createHtmlDocument (env.decodeErrorText piece)) }

/-- The application `server` on a GET request, lines 101-110. The first
registered route whose path matches has its captures percent-decoded; when
that succeeds its handler runs with the decoded parameters, when it fails the
framework answers 400 and no handler runs. No other route is registered, so a
request that matches none is answered by the framework with its own 404 page,
and no code of this module runs for it. The two middlewares only add
headers. -/
def server (env : Env) (req : HttpRequest) : Outcome :=
  match matching req.path with
  | (h, captures) :: _ =>
    match decodeParams captures with
    | .ok params => h.run env { params := toParams params, query := req.query }
    | .error piece => { calls := [], response := badParam env piece }
  | [] => { calls := [], response := unhandled env req }

/-! ## The words of the specification -/

/-- A character between two others, bounds included. -/
def between (lo hi c : Char) : Prop :=
  lo.toNat ≤ c.toNat ∧ c.toNat ≤ hi.toNat

instance between.decidable (lo hi c : Char) : Decidable (between lo hi c) :=
  inferInstanceAs (Decidable (_ ∧ _))

/-- The whole string is made of digits, and there is one at least. -/
def digitsOnly (s : String) : Prop :=
  s.data ≠ [] ∧ ∀ c ∈ s.data, between '0' '9' c

instance digitsOnly.decidable (s : String) : Decidable (digitsOnly s) :=
  inferInstanceAs (Decidable (_ ∧ _))

/-- A character a file name may hold: a digit, a letter of either case, a dot,
an underscore or a dash. -/
def filenameChar (c : Char) : Prop :=
  between '0' '9' c ∨ between 'a' 'z' c ∨ between 'A' 'Z' c ∨ c = '.' ∨ c = '_' ∨ c = '-'

instance filenameChar.decidable (c : Char) : Decidable (filenameChar c) :=
  inferInstanceAs (Decidable (_ ∨ _))

/-- The whole string is made of file name characters, and there is one at least. -/
def validFilename (s : String) : Prop :=
  s.data ≠ [] ∧ ∀ c ∈ s.data, filenameChar c

instance validFilename.decidable (s : String) : Decidable (validFilename s) :=
  inferInstanceAs (Decidable (_ ∧ _))

/-- A query value is truthy: it is there, and it is not the empty string. -/
def truthy (v : Option QueryValue) : Prop :=
  v ≠ none ∧ v ≠ some (.str "")

instance truthy.decidable (v : Option QueryValue) : Decidable (truthy v) :=
  inferInstanceAs (Decidable (_ ∧ _))

/-- The arguments handed to `attachments.getLocalAttachmentPath`, in order. -/
def Outcome.resolutions (o : Outcome) : List String :=
  o.calls.filterMap (fun c => match c with
    | .getLocalAttachmentPath a => some a
    | _ => none)

/-- The paths handed to `fs.access`, in order. -/
def Outcome.existenceChecks (o : Outcome) : List String :=
  o.calls.filterMap (fun c => match c with
    | .access a => some a
    | _ => none)

/-- The paths handed to `fs.createReadStream`, in order. -/
def Outcome.streams (o : Outcome) : List String :=
  o.calls.filterMap (fun c => match c with
    | .createReadStream a => some a
    | _ => none)

/-- The extensions handed to `mime.getType`, in order. -/
def Outcome.mimeLookups (o : Outcome) : List String :=
  o.calls.filterMap (fun c => match c with
    | .getType a => some a
    | _ => none)

/-- The queries run against the database, in order. -/
def Outcome.queriesRun (o : Outcome) : List Query :=
  o.calls.filterMap (fun c => match c with
    | .runQuery q => some q
    | _ => none)

/-- The option objects handed to `formatters.formatLog`, in order. -/
def Outcome.formatOptions (o : Outcome) : List FormatLogOpts :=
  o.calls.filterMap (fun c => match c with
    | .formatLog _ _ opts => some opts
    | _ => none)

/-- The request the router hands to `serveAttachments` for
`/attachments/<attachmentId>/<filename>`. -/
def attachmentRequest (attachmentId filename : String) : Request :=
  { params := { attachmentId := attachmentId, filename := filename } }

/-- The request the router hands to `serveLogs` for `/logs/<threadId>` with
the parsed query `query`. -/
def logsRequest (threadId : String) (query : List (String × QueryValue)) : Request :=
  { params := { threadId := threadId }, query := query }

/-- The request the router hands to `serveTickets` and `serveTicketStats`. -/
def ticketsRequest (query : List (String × QueryValue)) : Request :=
  { query := query }

/-! ## A small world to run the handlers in -/

/-- A thread of the sample store. -/
def sampleThread : Thread := { id := "t1", thread_number := 7, status := 1 }

/-- A formatter that answers in HTML when asked for the simple form, and gives
no `extra` otherwise. -/
def sampleFormatLog (_thread : Thread) (_messages : List ThreadMessage)
    (opts : FormatLogOpts) : FormatLogResult :=
  if opts.simple then
    { content := "<p>log</p>", extra := some { contentType := some "text/html" } }
  else { content := "log" }

/-- A sample environment: one thread `t1`, one stored attachment `42`, a MIME
table that knows `txt` and `bin`, four tickets, a framework in production
mode. The sample paths hold letters, digits, slashes and dots only, which the
error page shows unchanged. -/
def sampleEnv : Env where
  findById := fun id => if id = "t1" then some sampleThread else none
  getThreadMessages := fun _ => [{ id := 1, body := "hello" }]
  formatLog := sampleFormatLog
  getLocalAttachmentPath := fun id => "/attachments/" ++ id
  access := fun path => path == "/attachments/42"
  getType := fun ext =>
    if ext = "txt" then some "text/plain"
    else if ext = "bin" then some "application/octet-stream"
    else none
  threads :=
    [ { id := "a", thread_number := 1, status := 1 },
      { id := "b", thread_number := 3, status := 2 },
      { id := "c", thread_number := 2, status := 1 },
      { id := "d", thread_number := 5, status := 3 } ]
  shownPath := fun path => path
  decodeErrorText := fun _ => "Bad Request"

/-! ## Characters and patterns -/

theorem toNat_ofNat_of_lt (m : Nat) (h : m < 55296) : (Char.ofNat m).toNat = m := by
  unfold Char.ofNat
  rw [dif_pos (Or.inl h)]
  rfl

theorem toNat_toLower_of_upper (c : Char) (h : between 'A' 'Z' c) :
    c.toLower.toNat = c.toNat + 32 := by
  have h1 : 65 ≤ c.toNat := h.1
  have h2 : c.toNat ≤ 90 := h.2
  unfold Char.toLower
  simp only [ge_iff_le, h1, h2, and_self, if_true]
  exact toNat_ofNat_of_lt _ (by omega)

theorem toLower_of_not_upper (c : Char) (h : ¬ between 'A' 'Z' c) : c.toLower = c := by
  have h0 : ¬ (65 ≤ c.toNat ∧ c.toNat ≤ 90) := h
  unfold Char.toLower
  simp only [ge_iff_le, h0, if_false]

theorem toUpper_of_not_lower (c : Char) (h : ¬ between 'a' 'z' c) : c.toUpper = c := by
  have h0 : ¬ (97 ≤ c.toNat ∧ c.toNat ≤ 122) := h
  unfold Char.toUpper
  simp only [ge_iff_le, h0, if_false]

theorem attachmentId_inClass (c : Char) :
    attachmentIdPattern.matchChar c = true ↔ between '0' '9' c := by
  simp [ClassPlus.matchChar, ClassPlus.inClass, attachmentIdPattern, ClassItem.contains, between]

theorem filename_inClass (c : Char) :
    filenamePattern.inClass c = true ↔
      (between '0' '9' c ∨ between 'a' 'z' c ∨ c = '.' ∨ c = '_' ∨ c = '-') := by
  simp [ClassPlus.inClass, filenamePattern, ClassItem.contains, between, or_assoc]

theorem filename_matchChar (c : Char) :
    filenamePattern.matchChar c = true ↔ filenameChar c := by
  have hic : filenamePattern.ignoreCase = true := rfl
  unfold ClassPlus.matchChar filenameChar
  rw [hic]
  simp only [Bool.true_and, Bool.or_eq_true, filename_inClass]
  constructor
  · rintro (h | h | h)
    · rcases h with h | h | h | h | h
      · exact Or.inl h
      · exact Or.inr (Or.inl h)
      · exact Or.inr (Or.inr (Or.inr (Or.inl h)))
      · exact Or.inr (Or.inr (Or.inr (Or.inr (Or.inl h))))
      · exact Or.inr (Or.inr (Or.inr (Or.inr (Or.inr h))))
    · by_cases hu : between 'A' 'Z' c
      · exact Or.inr (Or.inr (Or.inl hu))
      · rw [toLower_of_not_upper c hu] at h
        rcases h with h | h | h | h | h
        · exact Or.inl h
        · exact Or.inr (Or.inl h)
        · exact Or.inr (Or.inr (Or.inr (Or.inl h)))
        · exact Or.inr (Or.inr (Or.inr (Or.inr (Or.inl h))))
        · exact Or.inr (Or.inr (Or.inr (Or.inr (Or.inr h))))
    · by_cases hl : between 'a' 'z' c
      · exact Or.inr (Or.inl hl)
      · rw [toUpper_of_not_lower c hl] at h
        rcases h with h | h | h | h | h
        · exact Or.inl h
        · exact Or.inr (Or.inl h)
        · exact Or.inr (Or.inr (Or.inr (Or.inl h)))
        · exact Or.inr (Or.inr (Or.inr (Or.inr (Or.inl h))))
        · exact Or.inr (Or.inr (Or.inr (Or.inr (Or.inr h))))
  · rintro (h | h | h | h | h | h)
    · exact Or.inl (Or.inl h)
    · exact Or.inl (Or.inr (Or.inl h))
    · refine Or.inr (Or.inl (Or.inr (Or.inl ?_)))
      have e := toNat_toLower_of_upper c h
      have h1 : 65 ≤ c.toNat := h.1
      have h2 : c.toNat ≤ 90 := h.2
      show 97 ≤ c.toLower.toNat ∧ c.toLower.toNat ≤ 122
      omega
    · exact Or.inl (Or.inr (Or.inr (Or.inl h)))
    · exact Or.inl (Or.inr (Or.inr (Or.inr (Or.inl h))))
    · exact Or.inl (Or.inr (Or.inr (Or.inr (Or.inr h))))

theorem attachmentId_test (s : String) :
    attachmentIdPattern.test s = true ↔ digitsOnly s := by
  unfold ClassPlus.test digitsOnly
  simp only [Bool.and_eq_true, Bool.not_eq_true', List.isEmpty_eq_false, List.all_eq_true,
    attachmentId_inClass]

theorem filename_test (s : String) :
    filenamePattern.test s = true ↔ validFilename s := by
  unfold ClassPlus.test validFilename
  simp only [Bool.and_eq_true, Bool.not_eq_true', List.all_eq_true, filename_matchChar]
  cases s.data <;> simp

/-! ## Attachments: validation -/

/-- C1. When the attachment id is not a whole string of digits, or the file
name is not a whole string of the characters `0-9`, `a-z`, `A-Z`, `.`, `_`,
`-`, `serveAttachments` answers 404 `Page Not Found` in every environment, and
makes no collaborator call: no path resolution, no existence check, no read
stream. -/
theorem serveAttachments_invalid_notfound (env : Env) (req : Request)
    (h : ¬ digitsOnly req.params.attachmentId ∨ ¬ validFilename req.params.filename) :
    serveAttachments env req =
      { calls := [],
        response := { status := 404, contentType := none, body := .text "Page Not Found" } } := by
  unfold serveAttachments
  rcases h with h | h
  · have h1 : attachmentIdPattern.test req.params.attachmentId = false := by
      rw [← Bool.not_eq_true, attachmentId_test]; exact h
    rw [if_pos h1]; rfl
  · have h2 : filenamePattern.test req.params.filename = false := by
      rw [← Bool.not_eq_true, filename_test]; exact h
    by_cases h1 : attachmentIdPattern.test req.params.attachmentId = false
    · rw [if_pos h1]; rfl
    · rw [if_neg h1, if_pos h2]; rfl

/-- Witness of C1: the id `12a` with a stored file name, and the file name
`a/b` with the id of a stored attachment. -/
theorem serveAttachments_invalid_notfound_witness :
    serveAttachments sampleEnv { params := { attachmentId := "12a", filename := "x.txt" } } =
        { calls := [],
          response := { status := 404, contentType := none, body := .text "Page Not Found" } } ∧
      serveAttachments sampleEnv { params := { attachmentId := "42", filename := "a/b" } } =
        { calls := [],
          response := { status := 404, contentType := none, body := .text "Page Not Found" } } :=
  ⟨serveAttachments_invalid_notfound sampleEnv
      { params := { attachmentId := "12a", filename := "x.txt" } } (Or.inl (by decide)),
   serveAttachments_invalid_notfound sampleEnv
      { params := { attachmentId := "42", filename := "a/b" } } (Or.inr (by decide))⟩

/-! ## Attachments: the storage path -/

theorem serveAttachments_invalid_both (env : Env) (req : Request)
    (h : ¬ digitsOnly req.params.attachmentId) :
    serveAttachments env req = { calls := [], response := notfound } := by
  have h1 : attachmentIdPattern.test req.params.attachmentId = false := by
    rw [← Bool.not_eq_true, attachmentId_test]; exact h
  unfold serveAttachments
  rw [if_pos h1]

theorem serveAttachments_valid (env : Env) (req : Request)
    (hid : digitsOnly req.params.attachmentId) (hf : validFilename req.params.filename) :
    serveAttachments env req =
      if env.access (env.getLocalAttachmentPath req.params.attachmentId) = false then
        { calls := [.getLocalAttachmentPath req.params.attachmentId,
                    .access (env.getLocalAttachmentPath req.params.attachmentId)],
          response := notfound }
      else
        { calls := [.getLocalAttachmentPath req.params.attachmentId,
                    .access (env.getLocalAttachmentPath req.params.attachmentId),
                    .getType (attachmentExt req.params.filename),
                    .createReadStream (env.getLocalAttachmentPath req.params.attachmentId)],
          response := { contentType := env.getType (attachmentExt req.params.filename),
                        body := .stream (env.getLocalAttachmentPath req.params.attachmentId) } } := by
  have h1 : ¬ attachmentIdPattern.test req.params.attachmentId = false := by
    rw [Bool.not_eq_false, attachmentId_test]; exact hid
  have h2 : ¬ filenamePattern.test req.params.filename = false := by
    rw [Bool.not_eq_false, filename_test]; exact hf
  unfold serveAttachments
  rw [if_neg h1, if_neg h2]

/-- C2. For every attachment id and every two valid file names, the two
requests hand the same argument to `getLocalAttachmentPath`, check the
existence of the same path and stream from the same path; that argument is
the id and that path is the one resolved from the id. The status and the
body of the two responses agree: the file name reaches the MIME lookup and
the content type only. -/
theorem serveAttachments_path_from_id (env : Env) (id f1 f2 : String)
    (h1 : validFilename f1) (h2 : validFilename f2) :
    (serveAttachments env (attachmentRequest id f1)).resolutions =
        (serveAttachments env (attachmentRequest id f2)).resolutions ∧
      (serveAttachments env (attachmentRequest id f1)).existenceChecks =
        (serveAttachments env (attachmentRequest id f2)).existenceChecks ∧
      (serveAttachments env (attachmentRequest id f1)).streams =
        (serveAttachments env (attachmentRequest id f2)).streams ∧
      (serveAttachments env (attachmentRequest id f1)).response.status =
        (serveAttachments env (attachmentRequest id f2)).response.status ∧
      (serveAttachments env (attachmentRequest id f1)).response.body =
        (serveAttachments env (attachmentRequest id f2)).response.body ∧
      (∀ a ∈ (serveAttachments env (attachmentRequest id f1)).resolutions, a = id) ∧
      (∀ path ∈ (serveAttachments env (attachmentRequest id f1)).existenceChecks ++
          (serveAttachments env (attachmentRequest id f1)).streams,
        path = env.getLocalAttachmentPath id) := by
  by_cases hid : digitsOnly id
  · rw [serveAttachments_valid env (attachmentRequest id f1) hid h1,
      serveAttachments_valid env (attachmentRequest id f2) hid h2]
    by_cases ha : env.access (env.getLocalAttachmentPath id) = false
    · simp [attachmentRequest, ha, Outcome.resolutions, Outcome.existenceChecks,
        Outcome.streams, notfound]
    · simp [attachmentRequest, ha, Outcome.resolutions, Outcome.existenceChecks,
        Outcome.streams]
  · rw [serveAttachments_invalid_both env (attachmentRequest id f1) hid,
      serveAttachments_invalid_both env (attachmentRequest id f2) hid]
    simp [Outcome.resolutions, Outcome.existenceChecks, Outcome.streams]

/-- Witness of C2: the file names `..` and `x.txt` for the stored attachment
`42`; both stream `/attachments/42`. -/
theorem serveAttachments_path_from_id_witness :
    (serveAttachments sampleEnv (attachmentRequest "42" "..")).streams = ["/attachments/42"] ∧
      (serveAttachments sampleEnv (attachmentRequest "42" "..")).streams =
        (serveAttachments sampleEnv (attachmentRequest "42" "x.txt")).streams ∧
      (serveAttachments sampleEnv (attachmentRequest "42" "..")).response.body =
        (serveAttachments sampleEnv (attachmentRequest "42" "x.txt")).response.body :=
  ⟨by decide,
   (serveAttachments_path_from_id sampleEnv "42" ".." "x.txt" (by decide) (by decide)).2.2.1,
   (serveAttachments_path_from_id sampleEnv "42" ".." "x.txt" (by decide) (by decide)).2.2.2.2.1⟩

/-! ## Attachments: the extension and the content type -/

theorem splitChars_spec (sep : Char) (l : List Char) :
    ∃ parts last, splitChars sep l = parts ++ [last] ∧ sep ∉ last ∧
      ((sep ∉ l ∧ parts = [] ∧ last = l) ∨
        (sep ∈ l ∧ parts ≠ [] ∧ ∃ pre, l = pre ++ sep :: last)) := by
  induction l with
  | nil => exact ⟨[], [], rfl, by simp, Or.inl ⟨by simp, rfl, rfl⟩⟩
  | cons c cs ih =>
    obtain ⟨parts, last, hsplit, hlast, hcase⟩ := ih
    by_cases hc : c = sep
    · refine ⟨[] :: parts, last, ?_, hlast, Or.inr ⟨?_, by simp, ?_⟩⟩
      · simp [splitChars, hc, hsplit]
      · simp [hc]
      · rcases hcase with ⟨_, _, hl⟩ | ⟨_, _, pre, hpre⟩
        · exact ⟨[], by simp [hc, hl]⟩
        · exact ⟨c :: pre, by simp [hpre]⟩
    · rcases hcase with ⟨hnot, hparts, hl⟩ | ⟨hmem, hparts, pre, hpre⟩
      · refine ⟨[], c :: last, ?_, ?_, Or.inl ⟨?_, rfl, by rw [hl]⟩⟩
        · simp [splitChars, hc, hsplit, hparts]
        · simp [hlast, Ne.symm hc]
        · simp [hnot, Ne.symm hc]
      · cases parts with
        | nil => exact absurd rfl hparts
        | cons p ps =>
          refine ⟨(c :: p) :: ps, last, ?_, hlast, Or.inr ⟨?_, by simp, c :: pre, by simp [hpre]⟩⟩
          · simp [splitChars, hc, hsplit]
          · simp [hmem]

theorem attachmentExt_spec (filename : String) :
    ('.' ∉ filename.data → attachmentExt filename = "bin") ∧
      ('.' ∈ filename.data → '.' ∉ (attachmentExt filename).data ∧
        ∃ pre, filename.data = pre ++ '.' :: (attachmentExt filename).data) := by
  obtain ⟨parts, last, hsplit, hlast, hcase⟩ := splitChars_spec '.' filename.data
  have hext : attachmentExt filename =
      if parts.length + 1 > 1 then String.mk last else "bin" := by
    simp [attachmentExt, split, hsplit]
  rcases hcase with ⟨hnot, hparts, _⟩ | ⟨hmem, hparts, pre, hpre⟩
  · refine ⟨fun _ => ?_, fun h => absurd h hnot⟩
    rw [hext, hparts]; rfl
  · have hlen : parts.length + 1 > 1 := by
      have := List.length_pos.mpr hparts
      omega
    rw [hext, if_pos hlen]
    exact ⟨fun h => absurd hmem h, fun _ => ⟨hlast, pre, hpre⟩⟩

/-- C8. For a valid id and a valid file name whose file exists, the handler
looks one extension up in the MIME table and the content type of the response
is the result of that lookup. The extension is `bin` when the file name holds
no dot; when it holds one, the extension holds no dot and is what follows a
dot of the file name, that is, what follows the last dot. -/
theorem serveAttachments_contentType (env : Env) (req : Request)
    (hid : digitsOnly req.params.attachmentId) (hf : validFilename req.params.filename)
    (hex : env.access (env.getLocalAttachmentPath req.params.attachmentId) = true) :
    ∃ ext : String,
      (serveAttachments env req).mimeLookups = [ext] ∧
      (serveAttachments env req).response.contentType = env.getType ext ∧
      (serveAttachments env req).response.status = 200 ∧
      ('.' ∉ req.params.filename.data → ext = "bin") ∧
      ('.' ∈ req.params.filename.data →
        '.' ∉ ext.data ∧ ∃ pre, req.params.filename.data = pre ++ '.' :: ext.data) := by
  refine ⟨attachmentExt req.params.filename, ?_, ?_, ?_,
    (attachmentExt_spec req.params.filename).1, (attachmentExt_spec req.params.filename).2⟩
  · rw [serveAttachments_valid env req hid hf]
    simp [hex, Outcome.mimeLookups]
  · rw [serveAttachments_valid env req hid hf]
    simp [hex]
  · rw [serveAttachments_valid env req hid hf]
    simp [hex]

/-- Witness of C8: `42.txt` is looked up as `txt`. -/
theorem serveAttachments_contentType_witness :
    (serveAttachments sampleEnv (attachmentRequest "42" "42.txt")).mimeLookups = ["txt"] ∧
      (serveAttachments sampleEnv (attachmentRequest "42" "42")).mimeLookups = ["bin"] ∧
      ∃ ext : String,
        (serveAttachments sampleEnv (attachmentRequest "42" "42.txt")).mimeLookups = [ext] ∧
        (serveAttachments sampleEnv (attachmentRequest "42" "42.txt")).response.contentType =
          sampleEnv.getType ext ∧
        (serveAttachments sampleEnv (attachmentRequest "42" "42.txt")).response.status = 200 ∧
        ('.' ∉ (attachmentRequest "42" "42.txt").params.filename.data → ext = "bin") ∧
        ('.' ∈ (attachmentRequest "42" "42.txt").params.filename.data →
          '.' ∉ ext.data ∧
            ∃ pre, (attachmentRequest "42" "42.txt").params.filename.data = pre ++ '.' :: ext.data) :=
  ⟨by decide, by decide,
   serveAttachments_contentType sampleEnv (attachmentRequest "42" "42.txt")
     (by decide) (by decide) (by decide)⟩

/-! ## Transcripts -/

theorem Boolean_iff_truthy (v : Option QueryValue) : Boolean v = true ↔ truthy v := by
  unfold truthy
  cases v with
  | none => simp [Boolean]
  | some x =>
    cases x with
    | str s =>
      cases s with
      | mk data => cases data <;> simp [Boolean, String.ext_iff]
    | arr items => simp [Boolean]
    | obj fields => simp [Boolean]

theorem serveLogs_found (env : Env) (req : Request) (thread : Thread)
    (h : env.findById req.params.threadId = some thread) :
    serveLogs env req =
      { calls := [.findById req.params.threadId, .getThreadMessages thread,
                  .formatLog thread (env.getThreadMessages thread)
                    { simple := Boolean (req.queryGet "simple"),
                      verbose := Boolean (req.queryGet "verbose") }],
        response :=
          { contentType := some (logContentType
              (env.formatLog thread (env.getThreadMessages thread)
                { simple := Boolean (req.queryGet "simple"),
                  verbose := Boolean (req.queryGet "verbose") })),
            body := .text (env.formatLog thread (env.getThreadMessages thread)
                { simple := Boolean (req.queryGet "simple"),
                  verbose := Boolean (req.queryGet "verbose") }).content } } := by
  unfold serveLogs
  rw [h]

/-- C6. When the lookup of the thread store finds no thread, `serveLogs`
answers 404 `Page Not Found`; its only collaborator call is the lookup, so it
fetches no messages and does not call the formatter. -/
theorem serveLogs_unknown_thread (env : Env) (req : Request)
    (h : env.findById req.params.threadId = none) :
    serveLogs env req =
      { calls := [.findById req.params.threadId],
        response := { status := 404, contentType := none, body := .text "Page Not Found" } } := by
  unfold serveLogs
  rw [h]
  rfl

/-- Witness of C6: the sample store has no thread `t2`. -/
theorem serveLogs_unknown_thread_witness :
    serveLogs sampleEnv (logsRequest "t2" [("simple", .str "1")]) =
      { calls := [.findById "t2"],
        response := { status := 404, contentType := none, body := .text "Page Not Found" } } :=
  serveLogs_unknown_thread sampleEnv (logsRequest "t2" [("simple", .str "1")]) (by decide)

/-- C7 as stated fails: the request `/logs/t1?simple=` reaches an existing
thread and its query holds the key `simple` (with the empty string), yet the
formatter receives `simple: false`. -/
theorem serveLogs_simple_presence_counterexample :
    sampleEnv.findById (logsRequest "t1" [("simple", .str "")]).params.threadId =
        some sampleThread ∧
      ((logsRequest "t1" [("simple", .str "")]).queryGet "simple").isSome = true ∧
      (serveLogs sampleEnv (logsRequest "t1" [("simple", .str "")])).formatOptions =
        [{ simple := false, verbose := false }] := by
  decide

/-- C7, amended. For every request to an existing thread the formatter is
called once, and its option `simple` is true exactly when the query value
`simple` is truthy (present and not the empty string); likewise `verbose`. -/
theorem serveLogs_options_truthy (env : Env) (req : Request) (thread : Thread)
    (h : env.findById req.params.threadId = some thread) :
    ∃ opts : FormatLogOpts,
      (serveLogs env req).formatOptions = [opts] ∧
      (opts.simple = true ↔ truthy (req.queryGet "simple")) ∧
      (opts.verbose = true ↔ truthy (req.queryGet "verbose")) := by
  refine ⟨{ simple := Boolean (req.queryGet "simple"),
            verbose := Boolean (req.queryGet "verbose") }, ?_,
    Boolean_iff_truthy _, Boolean_iff_truthy _⟩
  rw [serveLogs_found env req thread h]
  simp [Outcome.formatOptions]

/-- Witness of the amended C7: `?simple=0&verbose=` asks for the simple form
and not for the verbose one. -/
theorem serveLogs_options_truthy_witness :
    (serveLogs sampleEnv
        (logsRequest "t1" [("simple", .str "0"), ("verbose", .str "")])).formatOptions =
        [{ simple := true, verbose := false }] ∧
      ∃ opts : FormatLogOpts,
        (serveLogs sampleEnv
          (logsRequest "t1" [("simple", .str "0"), ("verbose", .str "")])).formatOptions =
            [opts] ∧
        (opts.simple = true ↔
          truthy ((logsRequest "t1" [("simple", .str "0"), ("verbose", .str "")]).queryGet
            "simple")) ∧
        (opts.verbose = true ↔
          truthy ((logsRequest "t1" [("simple", .str "0"), ("verbose", .str "")]).queryGet
            "verbose")) :=
  ⟨by decide,
   serveLogs_options_truthy sampleEnv
     (logsRequest "t1" [("simple", .str "0"), ("verbose", .str "")]) sampleThread (by decide)⟩

theorem logContentType_spec (r : FormatLogResult) :
    (r.extra = none → logContentType r = "text/plain; charset=UTF-8") ∧
      (∀ e, r.extra = some e → e.contentType = none →
        logContentType r = "text/plain; charset=UTF-8") ∧
      (∀ e ct, r.extra = some e → e.contentType = some ct → ct ≠ "" →
        logContentType r = ct) ∧
      (∀ e, r.extra = some e → e.contentType = some "" →
        logContentType r = "text/plain; charset=UTF-8") := by
  refine ⟨?_, ?_, ?_, ?_⟩
  · intro h
    simp [logContentType, h]
  · intro e h he
    simp [logContentType, h, he]
  · intro e ct h he hne
    have hd : ct.data ≠ [] := fun hd => hne (String.ext hd)
    simp [logContentType, h, he, hd]
  · intro e h he
    simp [logContentType, h, he]

/-- C9. For every existing thread, whatever the formatter returns, the
response has status 200, its body is the content the formatter returned,
unchanged, and its content type is the content type of the formatter when the
formatter gave one (`extra` is there and holds a content type, a string that
is not empty), and `text/plain; charset=UTF-8` when there is no `extra` or
`extra` holds no content type. An empty string is no content type: it is
falsy and gives the default too. -/
theorem serveLogs_contentType (env : Env) (req : Request) (thread : Thread)
    (h : env.findById req.params.threadId = some thread) :
    ∃ messages opts,
      (serveLogs env req).calls =
        [.findById req.params.threadId, .getThreadMessages thread,
         .formatLog thread messages opts] ∧
      (serveLogs env req).response.status = 200 ∧
      (serveLogs env req).response.body = .text (env.formatLog thread messages opts).content ∧
      ((env.formatLog thread messages opts).extra = none →
        (serveLogs env req).response.contentType = some "text/plain; charset=UTF-8") ∧
      (∀ e, (env.formatLog thread messages opts).extra = some e → e.contentType = none →
        (serveLogs env req).response.contentType = some "text/plain; charset=UTF-8") ∧
      (∀ e ct, (env.formatLog thread messages opts).extra = some e →
        e.contentType = some ct → ct ≠ "" →
        (serveLogs env req).response.contentType = some ct) ∧
      (∀ e, (env.formatLog thread messages opts).extra = some e → e.contentType = some "" →
        (serveLogs env req).response.contentType = some "text/plain; charset=UTF-8") := by
  refine ⟨env.getThreadMessages thread,
    { simple := Boolean (req.queryGet "simple"), verbose := Boolean (req.queryGet "verbose") },
    ?_, ?_, ?_, ?_, ?_, ?_, ?_⟩
  · rw [serveLogs_found env req thread h]
  · rw [serveLogs_found env req thread h]
  · rw [serveLogs_found env req thread h]
  · intro hx
    rw [serveLogs_found env req thread h]
    exact congrArg some ((logContentType_spec _).1 hx)
  · intro e hx he
    rw [serveLogs_found env req thread h]
    exact congrArg some ((logContentType_spec _).2.1 e hx he)
  · intro e ct hx he hne
    rw [serveLogs_found env req thread h]
    exact congrArg some ((logContentType_spec _).2.2.1 e ct hx he hne)
  · intro e hx he
    rw [serveLogs_found env req thread h]
    exact congrArg some ((logContentType_spec _).2.2.2 e hx he)

/-- Witness of C9: the sample formatter gives `text/html` for the simple form
and no `extra` otherwise. -/
theorem serveLogs_contentType_witness :
    (serveLogs sampleEnv (logsRequest "t1" [("simple", .str "1")])).response =
        { status := 200, contentType := some "text/html", body := .text "<p>log</p>" } ∧
      (serveLogs sampleEnv (logsRequest "t1" [])).response =
        { status := 200, contentType := some "text/plain; charset=UTF-8", body := .text "log" } ∧
      (serveLogs sampleEnv (logsRequest "t1" [])).response.status = 200 :=
  ⟨by decide, by decide,
   (serveLogs_contentType sampleEnv (logsRequest "t1" []) sampleThread (by decide)).elim
     (fun _ hm => hm.elim (fun _ ho => ho.2.1))⟩

/-! ## Tickets -/

theorem serveTickets_both (env : Env) (req : Request)
    (ho : Boolean (req.queryGet "open") = true) (hc : Boolean (req.queryGet "closed") = true) :
    serveTickets env req =
      { calls := [],
        response := { status := 400, contentType := some "application/json",
                      body := .object [("error", "MALFORMED_INPUT"),
                        ("message", "Cannot have both open and closed parameters")] } } := by
  unfold serveTickets
  simp [ho, hc]

theorem serveTickets_one (env : Env) (req : Request)
    (h : ¬ (Boolean (req.queryGet "open") = true ∧ Boolean (req.queryGet "closed") = true)) :
    serveTickets env req =
      { calls := [.knex "threads",
          .runQuery { table := "threads", orderBys := [(.thread_number, .DESC)],
                      wheres := (if Boolean (req.queryGet "open") = true then [(.status, 1)] else [])
                        ++ (if Boolean (req.queryGet "closed") = true then [(.status, 2)] else []) }],
        response :=
          { status := 200, contentType := some "application/json",
            body := .rows (Query.rows
              { table := "threads", orderBys := [(.thread_number, .DESC)],
                wheres := (if Boolean (req.queryGet "open") = true then [(.status, 1)] else [])
                  ++ (if Boolean (req.queryGet "closed") = true then [(.status, 2)] else []) }
              env.threads) } } := by
  unfold serveTickets
  cases ho : Boolean (req.queryGet "open") <;> cases hc : Boolean (req.queryGet "closed")
  · simp [knex, Query.orderBy]
  · simp [knex, Query.orderBy, Query.where_]
  · simp [knex, Query.orderBy, Query.where_]
  · exact absurd ⟨ho, hc⟩ h

/-- C3. When the query values `open` and `closed` are both truthy,
`serveTickets` answers 400 with the body
`error: MALFORMED_INPUT, message: Cannot have both open and closed parameters`
and neither builds nor runs a query. When at most one of them is truthy, it
builds one query, runs it once, and answers 200. -/
theorem serveTickets_conflict_or_query (env : Env) (req : Request) :
    (truthy (req.queryGet "open") ∧ truthy (req.queryGet "closed") →
      serveTickets env req =
        { calls := [],
          response := { status := 400, contentType := some "application/json",
                        body := .object [("error", "MALFORMED_INPUT"),
                          ("message", "Cannot have both open and closed parameters")] } }) ∧
    (¬ (truthy (req.queryGet "open") ∧ truthy (req.queryGet "closed")) →
      ∃ q, (serveTickets env req).calls = [.knex "threads", .runQuery q] ∧
        (serveTickets env req).queriesRun = [q] ∧
        (serveTickets env req).response.status = 200) := by
  constructor
  · rintro ⟨ho, hc⟩
    exact serveTickets_both env req ((Boolean_iff_truthy _).2 ho) ((Boolean_iff_truthy _).2 hc)
  · intro h
    have h0 : ¬ (Boolean (req.queryGet "open") = true ∧
        Boolean (req.queryGet "closed") = true) := by
      rw [Boolean_iff_truthy, Boolean_iff_truthy]; exact h
    rw [serveTickets_one env req h0]
    exact ⟨_, rfl, by simp [Outcome.queriesRun], rfl⟩

/-- Witness of C3: `?open=1&closed=1` is refused, `?open=1` is answered. -/
theorem serveTickets_conflict_or_query_witness :
    serveTickets sampleEnv (ticketsRequest [("open", .str "1"), ("closed", .str "1")]) =
        { calls := [],
          response := { status := 400, contentType := some "application/json",
                        body := .object [("error", "MALFORMED_INPUT"),
                          ("message", "Cannot have both open and closed parameters")] } } ∧
      ∃ q, (serveTickets sampleEnv (ticketsRequest [("open", .str "1")])).calls =
          [.knex "threads", .runQuery q] ∧
        (serveTickets sampleEnv (ticketsRequest [("open", .str "1")])).queriesRun = [q] ∧
        (serveTickets sampleEnv (ticketsRequest [("open", .str "1")])).response.status = 200 :=
  ⟨(serveTickets_conflict_or_query sampleEnv
      (ticketsRequest [("open", .str "1"), ("closed", .str "1")])).1 (by decide),
   (serveTickets_conflict_or_query sampleEnv
      (ticketsRequest [("open", .str "1")])).2 (by decide)⟩

theorem rows_desc_perm (ws : List (Column × Int)) (table : List Thread) :
    (Query.rows { table := "threads", orderBys := [(.thread_number, .DESC)], wheres := ws }
      table).Perm (table.filter (fun t => ws.all (fun w => t.get w.1 == w.2))) := by
  simp only [Query.rows, if_true, sortRows]
  exact List.perm_insertionSort _ _

theorem rows_desc_sorted (ws : List (Column × Int)) (table : List Thread) :
    (Query.rows { table := "threads", orderBys := [(.thread_number, .DESC)], wheres := ws }
      table).Pairwise (fun a b => b.thread_number ≤ a.thread_number) := by
  simp only [Query.rows, if_true, sortRows]
  haveI : IsTotal Thread (fun a b => precedes .thread_number .DESC a b = true) :=
    ⟨fun a b => by
      simp only [precedes, Thread.get, decide_eq_true_eq]
      exact le_total _ _⟩
  haveI : IsTrans Thread (fun a b => precedes .thread_number .DESC a b = true) :=
    ⟨fun a b c => by
      simp only [precedes, Thread.get, decide_eq_true_eq]
      exact fun h1 h2 => le_trans h2 h1⟩
  have hs := List.sorted_insertionSort (fun a b => precedes .thread_number .DESC a b = true)
    (List.filter (Query.satisfies
      { table := "threads", orderBys := [(.thread_number, .DESC)], wheres := ws }) table)
  refine List.Pairwise.imp ?_ hs
  intro a b hab
  simpa [precedes, Thread.get] using hab

/-- C4. Over the reference query layer, for every content of the table:
with `open` truthy and `closed` not, the body holds exactly the rows of
status 1; with `closed` truthy and `open` not, exactly the rows of status 2;
with neither truthy, every row. Exactly means: the body is a rearrangement of
those rows. In the three cases the body is in descending order of thread
number, and it is the answer of the one query that was run, as it came. -/
theorem serveTickets_rows (env : Env) (req : Request)
    (h : ¬ (truthy (req.queryGet "open") ∧ truthy (req.queryGet "closed"))) :
    ∃ q rs,
      (serveTickets env req).queriesRun = [q] ∧
      rs = q.rows env.threads ∧
      (serveTickets env req).response.body = .rows rs ∧
      rs.Pairwise (fun a b => b.thread_number ≤ a.thread_number) ∧
      (truthy (req.queryGet "open") →
        rs.Perm (env.threads.filter (fun t => t.status = 1))) ∧
      (truthy (req.queryGet "closed") →
        rs.Perm (env.threads.filter (fun t => t.status = 2))) ∧
      (¬ truthy (req.queryGet "open") → ¬ truthy (req.queryGet "closed") →
        rs.Perm env.threads) := by
  have h0 : ¬ (Boolean (req.queryGet "open") = true ∧
      Boolean (req.queryGet "closed") = true) := by
    rw [Boolean_iff_truthy, Boolean_iff_truthy]; exact h
  rw [serveTickets_one env req h0]
  refine ⟨_, _, by simp [Outcome.queriesRun], rfl, rfl, rows_desc_sorted _ _, ?_, ?_, ?_⟩
  · intro ho
    have hc : ¬ truthy (req.queryGet "closed") := fun hc => h ⟨ho, hc⟩
    have ho1 := (Boolean_iff_truthy _).2 ho
    have hc1 : ¬ Boolean (req.queryGet "closed") = true := fun x => hc ((Boolean_iff_truthy _).1 x)
    have hp := rows_desc_perm [(.status, 1)] env.threads
    simpa [ho1, hc1, Thread.get] using hp
  · intro hc
    have ho : ¬ truthy (req.queryGet "open") := fun ho => h ⟨ho, hc⟩
    have hc1 := (Boolean_iff_truthy _).2 hc
    have ho1 : ¬ Boolean (req.queryGet "open") = true := fun x => ho ((Boolean_iff_truthy _).1 x)
    have hp := rows_desc_perm [(.status, 2)] env.threads
    simpa [ho1, hc1, Thread.get] using hp
  · intro ho hc
    have ho1 : ¬ Boolean (req.queryGet "open") = true := fun x => ho ((Boolean_iff_truthy _).1 x)
    have hc1 : ¬ Boolean (req.queryGet "closed") = true := fun x => hc ((Boolean_iff_truthy _).1 x)
    have hp := rows_desc_perm [] env.threads
    simpa [ho1, hc1] using hp

/-- Witness of C4: `?open=1` on the four sample tickets gives the two open
ones, thread number 2 before thread number 1. -/
theorem serveTickets_rows_witness :
    (serveTickets sampleEnv (ticketsRequest [("open", .str "1")])).response.body =
        .rows [{ id := "c", thread_number := 2, status := 1 },
               { id := "a", thread_number := 1, status := 1 }] ∧
      ∃ q rs,
        (serveTickets sampleEnv (ticketsRequest [("open", .str "1")])).queriesRun = [q] ∧
        rs = q.rows sampleEnv.threads ∧
        (serveTickets sampleEnv (ticketsRequest [("open", .str "1")])).response.body = .rows rs ∧
        rs.Pairwise (fun a b => b.thread_number ≤ a.thread_number) ∧
        (truthy ((ticketsRequest [("open", .str "1")]).queryGet "open") →
          rs.Perm (sampleEnv.threads.filter (fun t => t.status = 1))) ∧
        (truthy ((ticketsRequest [("open", .str "1")]).queryGet "closed") →
          rs.Perm (sampleEnv.threads.filter (fun t => t.status = 2))) ∧
        (¬ truthy ((ticketsRequest [("open", .str "1")]).queryGet "open") →
          ¬ truthy ((ticketsRequest [("open", .str "1")]).queryGet "closed") →
          rs.Perm sampleEnv.threads) :=
  ⟨by decide,
   serveTickets_rows sampleEnv (ticketsRequest [("open", .str "1")]) (by decide)⟩

/-! ## Ticket statistics -/

theorem satisfies_no_where (table : String) (sel : List Column) (cnt : Option String)
    (grp : List Column) (rows : List Thread) :
    rows.filter (Query.satisfies
      { table := table, selects := sel, countId := cnt, groupBys := grp }) = rows := by
  apply List.filter_eq_self.2
  intro t _
  simp [Query.satisfies]

theorem filterMap_eq_map_of_forall {α β : Type} (f : α → Option β) (g : α → β) (l : List α)
    (h : ∀ x ∈ l, f x = some (g x)) : l.filterMap f = l.map g := by
  induction l with
  | nil => rfl
  | cons a l ih =>
    have ha := h a (by simp)
    have hl := ih (fun x hx => h x (by simp [hx]))
    simp [List.filterMap_cons, ha, hl]

theorem group_record (table : List Thread) (s : Int) (hs : ∃ t ∈ table, t.status = s) :
    (match table.filter (fun t => [t.status] == [s]) with
      | [] => none
      | t :: rest =>
        some ([("status", t.status)] ++
          [("count", (((t :: rest).map Thread.id).length : Int))])) =
      some [("status", s), ("count", (table.countP (fun t => t.status = s) : Int))] := by
  have hfun : (fun t : Thread => [t.status] == [s]) = (fun t => decide (t.status = s)) := by
    funext t
    by_cases h : t.status = s <;> simp [h]
  rw [hfun, List.countP_eq_length_filter]
  cases hg : table.filter (fun t => decide (t.status = s)) with
  | nil =>
    obtain ⟨t, ht, hts⟩ := hs
    have : t ∈ table.filter (fun t => decide (t.status = s)) := by
      simp [List.mem_filter, ht, hts]
    rw [hg] at this
    exact absurd this (by simp)
  | cons t rest =>
    have hmem : t ∈ table.filter (fun t => decide (t.status = s)) := by
      rw [hg]; simp
    have hts : t.status = s := by
      simpa using (List.mem_filter.1 hmem).2
    simp [hts]

theorem serveTicketStats_eq (env : Env) (req : Request) :
    serveTicketStats env req =
      { calls := [.knex "threads",
          .runQuery { table := "threads", selects := [.status], countId := some "count",
                      groupBys := [.status] }],
        response :=
          { status := 200, contentType := some "application/json",
            body := .records ((env.threads.map Thread.status).dedup.map
              (fun s => [("status", s),
                ("count", (env.threads.countP (fun t => t.status = s) : Int))])) } } := by
  have hkeys : (env.threads.map (fun t => [t.status])).dedup =
      (env.threads.map Thread.status).dedup.map (fun s => [s]) := by
    have hinj : Function.Injective (fun s : Int => [s]) := fun a b h => by simpa using h
    rw [← List.dedup_map_of_injective hinj, List.map_map]
    rfl
  have hrec : ((env.threads.map Thread.status).dedup.map (fun s => [s])).filterMap
      (fun key =>
        match env.threads.filter (fun t => [t.status] == key) with
        | [] => none
        | t :: rest =>
          some ([("status", t.status)] ++
            [("count", (((t :: rest).map Thread.id).length : Int))])) =
      (env.threads.map Thread.status).dedup.map
        (fun s => [("status", s),
          ("count", (env.threads.countP (fun t => t.status = s) : Int))]) := by
    rw [List.filterMap_map]
    apply filterMap_eq_map_of_forall
    intro s hs
    have hex : ∃ t ∈ env.threads, t.status = s := by
      simpa [List.mem_dedup] using hs
    exact group_record env.threads s hex
  simp only [serveTicketStats, knex, Query.select, Query.count, Query.groupBy, Query.counts,
    if_true, satisfies_no_where, List.nil_append]
  have hgk : (Query.groupKey { table := "threads", selects := [Column.status],
                               countId := some "count", groupBys := [Column.status] }) =
      (fun t => [t.status]) := by
    funext t
    simp [Query.groupKey, Thread.get]
  simp only [hgk, hkeys, List.map_cons, List.map_nil, Column.name, Thread.get]
  simp only [List.map_cons] at hrec
  rw [hrec]

theorem sum_counts (table : List Thread) :
    ((table.map Thread.status).dedup.map
      (fun s => table.countP (fun t => t.status = s))).sum = table.length := by
  have hsum := List.sum_map_count_dedup_eq_length (table.map Thread.status)
  rw [List.length_map] at hsum
  rw [← hsum]
  congr 1
  apply List.map_congr_left
  intro s _
  have hfun : (fun t : Thread => decide (t.status = s)) = ((fun x : Int => x == s) ∘ Thread.status) := by
    funext t
    by_cases h : t.status = s <;> simp [h]
  rw [List.count_eq_countP, List.countP_map, hfun]

/-- C5. Over the reference query layer, for every content of the table, the
body of `serveTicketStats` holds one row `status, count` for each status of a
list of statuses that has no repetition and holds exactly the statuses some
ticket has (so no row for a status no ticket has); the count of a row is the
number of tickets of its status; the counts add up to the number of tickets.
The status of the response is 200 and one query is run. -/
theorem serveTicketStats_counts (env : Env) (req : Request) :
    ∃ statuses : List Int,
      (serveTicketStats env req).response.status = 200 ∧
      (serveTicketStats env req).queriesRun.length = 1 ∧
      (serveTicketStats env req).response.body =
        .records (statuses.map (fun s =>
          [("status", s), ("count", (env.threads.countP (fun t => t.status = s) : Int))])) ∧
      statuses.Nodup ∧
      (∀ s : Int, s ∈ statuses ↔ ∃ t ∈ env.threads, t.status = s) ∧
      (statuses.map (fun s => env.threads.countP (fun t => t.status = s))).sum =
        env.threads.length := by
  rw [serveTicketStats_eq env req]
  refine ⟨(env.threads.map Thread.status).dedup, rfl, by simp [Outcome.queriesRun], rfl,
    List.nodup_dedup _, ?_, sum_counts env.threads⟩
  intro s
  simp [List.mem_dedup]

/-- Witness of C5: the four sample tickets have the statuses 1, 2, 1, 3; the
body holds three rows, with the counts 1, 2 and 1. -/
theorem serveTicketStats_counts_witness :
    (serveTicketStats sampleEnv (ticketsRequest [])).response.body =
        .records [[("status", 2), ("count", 1)], [("status", 1), ("count", 2)],
                  [("status", 3), ("count", 1)]] ∧
      ∃ statuses : List Int,
        (serveTicketStats sampleEnv (ticketsRequest [])).response.status = 200 ∧
        (serveTicketStats sampleEnv (ticketsRequest [])).queriesRun.length = 1 ∧
        (serveTicketStats sampleEnv (ticketsRequest [])).response.body =
          .records (statuses.map (fun s =>
            [("status", s),
             ("count", (sampleEnv.threads.countP (fun t => t.status = s) : Int))])) ∧
        statuses.Nodup ∧
        (∀ s : Int, s ∈ statuses ↔ ∃ t ∈ sampleEnv.threads, t.status = s) ∧
        (statuses.map (fun s => sampleEnv.threads.countP (fun t => t.status = s))).sum =
          sampleEnv.threads.length :=
  ⟨by decide, serveTicketStats_counts sampleEnv (ticketsRequest [])⟩

/-! ## The route table -/

theorem splitChars_of_not_mem (sep : Char) (l : List Char) (h : sep ∉ l) :
    splitChars sep l = [l] := by
  obtain ⟨parts, last, hsplit, _, hcase⟩ := splitChars_spec sep l
  rcases hcase with ⟨_, hparts, hl⟩ | ⟨hmem, _, _⟩
  · rw [hsplit, hparts, hl]; rfl
  · exact absurd hmem h

theorem matchRoute_cons (p : Segment) (ps : List Segment) (seg : List Char)
    (segs : List (List Char)) (c : List (String × String))
    (h : matchRoute (p :: ps) (seg :: segs) = some c) :
    (∃ c1, p.capture seg = some c1) ∧ ∃ c2, matchRoute ps segs = some c2 := by
  unfold matchRoute at h
  cases h1 : p.capture seg with
  | none => simp [h1] at h
  | some c1 =>
    cases h2 : matchRoute ps segs with
    | none => simp [h1, h2] at h
    | some c2 => exact ⟨⟨c1, rfl⟩, ⟨c2, rfl⟩⟩

theorem matchRoute_length (ps : List Segment) (segs : List (List Char))
    (c : List (String × String)) (h : matchRoute ps segs = some c) :
    ps.length = segs.length := by
  induction ps generalizing segs c with
  | nil =>
    cases segs with
    | nil => rfl
    | cons seg segs => simp [matchRoute] at h
  | cons p ps ih =>
    cases segs with
    | nil => simp [matchRoute] at h
    | cons seg segs =>
      obtain ⟨_, c2, h2⟩ := matchRoute_cons p ps seg segs c h
      simp [ih segs c2 h2]

theorem capture_lit (s : String) (seg : List Char) (c : List (String × String))
    (h : (Segment.lit s).capture seg = some c) :
    seg.map Char.toLower = s.data.map Char.toLower := by
  unfold Segment.capture at h
  by_contra hne
  simp [hne] at h

theorem matching_length_le_one (path : String) : (matching path).length ≤ 1 := by
  unfold matching
  cases pathSegments path with
  | none => simp
  | some segs =>
    have e12 : ∀ c1 c2,
        matchRoute [.lit "logs", .param "threadId"] segs = some c1 →
        matchRoute [.lit "attachments", .param "attachmentId", .param "filename"] segs =
          some c2 → False := by
      intro c1 c2 h1 h2
      have l1 := matchRoute_length _ _ _ h1
      have l2 := matchRoute_length _ _ _ h2
      simp at l1 l2
      omega
    have e13 : ∀ c1 c2,
        matchRoute [.lit "logs", .param "threadId"] segs = some c1 →
        matchRoute [.lit "api", .lit "v1", .lit "tickets"] segs = some c2 → False := by
      intro c1 c2 h1 h2
      have l1 := matchRoute_length _ _ _ h1
      have l2 := matchRoute_length _ _ _ h2
      simp at l1 l2
      omega
    have e14 : ∀ c1 c2,
        matchRoute [.lit "logs", .param "threadId"] segs = some c1 →
        matchRoute [.lit "api", .lit "v1", .lit "ticketStats"] segs = some c2 → False := by
      intro c1 c2 h1 h2
      have l1 := matchRoute_length _ _ _ h1
      have l2 := matchRoute_length _ _ _ h2
      simp at l1 l2
      omega
    have e2x : ∀ (last : String) c1 c2,
        matchRoute [.lit "attachments", .param "attachmentId", .param "filename"] segs =
          some c1 →
        matchRoute [.lit "api", .lit "v1", .lit last] segs = some c2 → False := by
      intro last c1 c2 h1 h2
      cases segs with
      | nil => simp [matchRoute] at h1
      | cons a rest =>
        obtain ⟨⟨d1, hd1⟩, _⟩ := matchRoute_cons _ _ _ _ _ h1
        obtain ⟨⟨d2, hd2⟩, _⟩ := matchRoute_cons _ _ _ _ _ h2
        have := (capture_lit _ _ _ hd1).symm.trans (capture_lit _ _ _ hd2)
        exact absurd this (by decide)
    have e34 : ∀ c1 c2,
        matchRoute [.lit "api", .lit "v1", .lit "tickets"] segs = some c1 →
        matchRoute [.lit "api", .lit "v1", .lit "ticketStats"] segs = some c2 → False := by
      intro c1 c2 h1 h2
      rcases segs with _ | ⟨a, _ | ⟨b, _ | ⟨c, rest⟩⟩⟩
      · simp [matchRoute] at h1
      · have l1 := matchRoute_length _ _ _ h1
        simp at l1
      · have l1 := matchRoute_length _ _ _ h1
        simp at l1
      · obtain ⟨_, x1, hx1⟩ := matchRoute_cons _ _ _ _ _ h1
        obtain ⟨_, y1, hy1⟩ := matchRoute_cons _ _ _ _ _ hx1
        obtain ⟨⟨d1, hd1⟩, _⟩ := matchRoute_cons _ _ _ _ _ hy1
        obtain ⟨_, x2, hx2⟩ := matchRoute_cons _ _ _ _ _ h2
        obtain ⟨_, y2, hy2⟩ := matchRoute_cons _ _ _ _ _ hx2
        obtain ⟨⟨d2, hd2⟩, _⟩ := matchRoute_cons _ _ _ _ _ hy2
        have := (capture_lit _ _ _ hd1).symm.trans (capture_lit _ _ _ hd2)
        exact absurd this (by decide)
    simp only [routes, List.filterMap_cons, List.filterMap_nil]
    cases h1 : matchRoute [.lit "logs", .param "threadId"] segs <;>
    cases h2 : matchRoute [.lit "attachments", .param "attachmentId", .param "filename"] segs <;>
    cases h3 : matchRoute [.lit "api", .lit "v1", .lit "tickets"] segs <;>
    cases h4 : matchRoute [.lit "api", .lit "v1", .lit "ticketStats"] segs <;>
    simp <;>
    first
      | exact e12 _ _ h1 h2
      | exact e13 _ _ h1 h3
      | exact e14 _ _ h1 h4
      | exact e2x _ _ _ h2 h3
      | exact e2x _ _ _ h2 h4
      | exact e34 _ _ h3 h4

theorem splitChars_append_sep (sep : Char) (l r : List Char) (h : sep ∉ l) :
    splitChars sep (l ++ sep :: r) = l :: splitChars sep r := by
  induction l with
  | nil => simp [splitChars]
  | cons c cs ih =>
    have hc : c ≠ sep := fun e => h (by simp [e])
    have hcs : sep ∉ cs := fun e => h (by simp [e])
    simp [splitChars, hc, ih hcs]

theorem isEmpty_false_of_ne_nil (l : List Char) (h : l ≠ []) : l.isEmpty = false := by
  cases l with
  | nil => exact absurd rfl h
  | cons _ _ => rfl

theorem matching_logs (t : String) (h1 : t.data ≠ []) (h2 : '/' ∉ t.data) :
    matching ("/logs/" ++ t) = [(.serveLogs, [("threadId", t)])] := by
  have hd : ("/logs/" ++ t).data = '/' :: (['l', 'o', 'g', 's'] ++ '/' :: t.data) := by
    rw [String.data_append]; rfl
  have hp : pathSegments ("/logs/" ++ t) = some [['l', 'o', 'g', 's'], t.data] := by
    unfold pathSegments
    rw [hd]
    simp only []
    rw [splitChars_append_sep '/' _ _ (by decide), splitChars_of_not_mem '/' t.data h2]
    simp [h1]
  unfold matching
  rw [hp]
  simp [routes, matchRoute, Segment.capture, isEmpty_false_of_ne_nil t.data h1]

theorem matching_attachments (a f : String) (ha1 : a.data ≠ []) (ha2 : '/' ∉ a.data)
    (hf1 : f.data ≠ []) (hf2 : '/' ∉ f.data) :
    matching ("/attachments/" ++ a ++ "/" ++ f) =
      [(.serveAttachments, [("attachmentId", a), ("filename", f)])] := by
  have hd : ("/attachments/" ++ a ++ "/" ++ f).data =
      '/' :: (['a', 't', 't', 'a', 'c', 'h', 'm', 'e', 'n', 't', 's'] ++
        '/' :: (a.data ++ '/' :: f.data)) := by
    simp only [String.data_append]
    simp
  have hp : pathSegments ("/attachments/" ++ a ++ "/" ++ f) =
      some [['a', 't', 't', 'a', 'c', 'h', 'm', 'e', 'n', 't', 's'], a.data, f.data] := by
    unfold pathSegments
    rw [hd]
    simp only []
    rw [splitChars_append_sep '/' _ _ (by decide), splitChars_append_sep '/' _ _ ha2,
      splitChars_of_not_mem '/' f.data hf2]
    simp [hf1]
  unfold matching
  rw [hp]
  simp [routes, matchRoute, Segment.capture, isEmpty_false_of_ne_nil a.data ha1,
    isEmpty_false_of_ne_nil f.data hf1]

theorem unescape_cons_ne (c : Char) (cs : List Char) (hc : c ≠ '%') :
    unescape (c :: cs) = (unescape cs).map (fun ts => Token.char c :: ts) := by
  conv => lhs; unfold unescape
  simp only [hc, if_false]
  cases unescape cs <;> rfl

theorem utf8_cons_char (c : Char) (ts : List Token) :
    utf8 (Token.char c :: ts) = (utf8 ts).map (fun cs => c :: cs) := by
  have h : utf8 (Token.char c :: ts) =
      (match utf8 ts with
        | some cs => some (c :: cs)
        | none => none) := rfl
  rw [h]
  cases utf8 ts <;> rfl

theorem unescape_of_no_percent (cs : List Char) (h : '%' ∉ cs) :
    unescape cs = some (cs.map Token.char) := by
  induction cs with
  | nil => rfl
  | cons c cs ih =>
    have hc : c ≠ '%' := fun e => h (by simp [e])
    have hcs : '%' ∉ cs := fun e => h (by simp [e])
    rw [unescape_cons_ne c cs hc, ih hcs]
    rfl

theorem utf8_map_char (cs : List Char) : utf8 (cs.map Token.char) = some cs := by
  induction cs with
  | nil => rfl
  | cons c cs ih =>
    rw [List.map_cons, utf8_cons_char, ih]
    rfl

theorem decodeURIComponent_of_no_percent (s : String) (h : '%' ∉ s.data) :
    decodeURIComponent s = some s := by
  simp [decodeURIComponent, unescape_of_no_percent s.data h, utf8_map_char]

theorem createHtmlDocument_ne (shown : String) :
    createHtmlDocument shown ≠ "Page Not Found" := by
  intro h
  have hd := congrArg (fun x : String => x.data.head?) h
  simp only [createHtmlDocument, String.data_append] at hd
  simp at hd

theorem server_matched_ok (env : Env) (req : HttpRequest) (h : Handler)
    (captures params : List (String × String))
    (hm : matching req.path = [(h, captures)]) (hd : decodeParams captures = .ok params) :
    server env req = h.run env { params := toParams params, query := req.query } := by
  simp only [server, hm, hd]

theorem server_matched_error (env : Env) (req : HttpRequest) (h : Handler)
    (captures : List (String × String)) (piece : String)
    (hm : matching req.path = [(h, captures)]) (hd : decodeParams captures = .error piece) :
    server env req = { calls := [], response := badParam env piece } := by
  simp only [server, hm, hd]

theorem decode_param_of_decoded (t d : String) (h1 : t.data ≠ [])
    (hd : decodeURIComponent t = some d) : decode_param t = some d := by
  simp [decode_param, isEmpty_false_of_ne_nil t.data h1, hd]

/-- C10 as stated fails, twice. The GET request `/favicon.ico` matches none of
the four routes: no handler runs, `notfound` is not called, and the answer is
the 404 page of the framework, whose body is not `Page Not Found`. The GET
request `/logs/%E0%A4%A` matches the route of `serveLogs`, yet its parameter
cannot be decoded: no handler runs and the status is 400. -/
theorem server_unmatched_counterexample :
    matching "/favicon.ico" = [] ∧
      (server sampleEnv { path := "/favicon.ico" }).response =
        { status := 404, contentType := some "text/html; charset=utf-8",
          body := .text ("<!DOCTYPE html>\n<html lang=\"en\">\n<head>\n" ++
            "<meta charset=\"utf-8\">\n<title>Error</title>\n</head>\n<body>\n" ++
            "<pre>Cannot GET /favicon.ico</pre>\n</body>\n</html>\n") } ∧
      (server sampleEnv { path := "/favicon.ico" }).response.body ≠ .text "Page Not Found" ∧
      matching "/logs/%E0%A4%A" = [(.serveLogs, [("threadId", "%E0%A4%A")])] ∧
      (server sampleEnv { path := "/logs/%E0%A4%A" }).calls = [] ∧
      (server sampleEnv { path := "/logs/%E0%A4%A" }).response.status = 400 := by
  decide

/-- C10, amended. At most one route matches a path. A GET request whose path
matches a route has the captured parameters percent-decoded; when they decode,
the handler registered for that route runs with the decoded parameters, and
when one does not, no handler runs and the framework answers 400. So a GET
request for `/logs/<threadId>` or `/attachments/<attachmentId>/<filename>`
(each parameter not empty and without slash) runs `serveLogs` or
`serveAttachments` with the decoded parameters, which are the parameters as
written when they hold no percent sign, and `/api/v1/tickets` and
`/api/v1/ticketStats` run `serveTickets` and `serveTicketStats`. A GET request
that matches no route runs no handler and makes no collaborator call: it gets
status 404 and the error page of the framework, which reads `Cannot GET` and
the path, and whose body is never `Page Not Found`. -/
theorem server_dispatch (env : Env) (query : List (String × QueryValue)) :
    (∀ path, (matching path).length ≤ 1) ∧
    (∀ path h captures params, matching path = [(h, captures)] →
      decodeParams captures = .ok params →
      server env { path := path, query := query } =
        h.run env { params := toParams params, query := query }) ∧
    (∀ path h captures piece, matching path = [(h, captures)] →
      decodeParams captures = .error piece →
      server env { path := path, query := query } =
        { calls := [],
          response := { status := 400, contentType := some "text/html; charset=utf-8",
                        body := .text (createHtmlDocument (env.decodeErrorText piece)) } }) ∧
    (∀ t d : String, t.data ≠ [] → '/' ∉ t.data → decodeURIComponent t = some d →
      server env { path := "/logs/" ++ t, query := query } =
        serveLogs env { params := { threadId := d }, query := query }) ∧
    (∀ a f da df : String, a.data ≠ [] → '/' ∉ a.data → f.data ≠ [] → '/' ∉ f.data →
      decodeURIComponent a = some da → decodeURIComponent f = some df →
      server env { path := "/attachments/" ++ a ++ "/" ++ f, query := query } =
        serveAttachments env
          { params := { attachmentId := da, filename := df }, query := query }) ∧
    (∀ t : String, '%' ∉ t.data → decodeURIComponent t = some t) ∧
    server env { path := "/api/v1/tickets", query := query } =
      serveTickets env { query := query } ∧
    server env { path := "/api/v1/ticketStats", query := query } =
      serveTicketStats env { query := query } ∧
    (∀ path, matching path = [] →
      server env { path := path, query := query } =
        { calls := [],
          response := { status := 404, contentType := some "text/html; charset=utf-8",
                        body := .text (createHtmlDocument
                          ("Cannot GET " ++ env.shownPath path)) } } ∧
      (server env { path := path, query := query }).response.status = 404 ∧
      (server env { path := path, query := query }).response.body ≠
        .text "Page Not Found") := by
  refine ⟨matching_length_le_one, ?_, ?_, ?_, ?_, decodeURIComponent_of_no_percent,
    ?_, ?_, ?_⟩
  · intro path h captures params hm hd
    exact server_matched_ok env { path := path, query := query } h captures params hm hd
  · intro path h captures piece hm hd
    exact server_matched_error env { path := path, query := query } h captures piece hm hd
  · intro t d h1 h2 hd
    have hp : decodeParams [("threadId", t)] = .ok [("threadId", d)] := by
      simp [decodeParams, decode_param_of_decoded t d h1 hd]
    rw [server_matched_ok env { path := "/logs/" ++ t, query := query } .serveLogs _ _
      (matching_logs t h1 h2) hp]
    rfl
  · intro a f da df ha1 ha2 hf1 hf2 hda hdf
    have hp : decodeParams [("attachmentId", a), ("filename", f)] =
        .ok [("attachmentId", da), ("filename", df)] := by
      simp [decodeParams, decode_param_of_decoded a da ha1 hda,
        decode_param_of_decoded f df hf1 hdf]
    rw [server_matched_ok env { path := "/attachments/" ++ a ++ "/" ++ f, query := query }
      .serveAttachments _ _ (matching_attachments a f ha1 ha2 hf1 hf2) hp]
    rfl
  · have hm : matching "/api/v1/tickets" = [(.serveTickets, [])] := by decide
    rw [server_matched_ok env { path := "/api/v1/tickets", query := query } .serveTickets
      [] [] hm rfl]
    rfl
  · have hm : matching "/api/v1/ticketStats" = [(.serveTicketStats, [])] := by decide
    rw [server_matched_ok env { path := "/api/v1/ticketStats", query := query }
      .serveTicketStats [] [] hm rfl]
    rfl
  · intro path hm
    have hs : server env { path := path, query := query } =
        { calls := [], response := unhandled env { path := path, query := query } } := by
      simp only [server, hm]
    rw [hs]
    refine ⟨rfl, rfl, ?_⟩
    intro hb
    simp only [unhandled, Body.text.injEq] at hb
    exact createHtmlDocument_ne _ hb

/-- Witness of the amended C10: `/logs/%741` runs `serveLogs` on the thread id
`t1`, `/attachments/42/x%2Etxt` runs `serveAttachments` on the file name
`x.txt`, and `/favicon.ico` gets status 404. -/
theorem server_dispatch_witness :
    server sampleEnv { path := "/logs/%741", query := [("simple", .str "1")] } =
        serveLogs sampleEnv { params := { threadId := "t1" }, query := [("simple", .str "1")] } ∧
      server sampleEnv { path := "/attachments/" ++ "42" ++ "/" ++ "x%2Etxt",
                         query := [("simple", .str "1")] } =
        serveAttachments sampleEnv
          { params := { attachmentId := "42", filename := "x.txt" },
            query := [("simple", .str "1")] } ∧
      (matching "/api/v1/tickets/").length ≤ 1 ∧
      (server sampleEnv { path := "/favicon.ico",
                          query := [("simple", .str "1")] }).response.status = 404 :=
  ⟨(server_dispatch sampleEnv [("simple", .str "1")]).2.2.2.1 "%741" "t1"
     (by decide) (by decide) (by decide),
   (server_dispatch sampleEnv [("simple", .str "1")]).2.2.2.2.1 "42" "x%2Etxt" "42" "x.txt"
     (by decide) (by decide) (by decide) (by decide) (by decide) (by decide),
   (server_dispatch sampleEnv [("simple", .str "1")]).1 "/api/v1/tickets/",
   ((server_dispatch sampleEnv [("simple", .str "1")]).2.2.2.2.2.2.2.2 "/favicon.ico"
     (by decide)).2.1⟩

end Webserver
